import Mathlib

/-!
Verification development for the copy-trading backend.

Shallow embedding of the core components referenced by the specification:
the FIFO P&L / reputation engine (`pnl_calculator.py`), the copy-trading
engine sizing logic (`engine.py`), the trade monitor's event construction
and dedup (`monitor.py`), and the trading orchestrator's price discovery
and replication (`orchestrator.py`).

Conventions of the embedding:
* Python `Decimal` and `float` quantities are modelled as `ℚ` (exact
  rationals); the one place where the code can produce a literal IEEE
  infinity (`profit_factor`) is modelled with an explicit `PyFloat` type.
* `datetime` values are modelled as rational POSIX timestamps in seconds;
  `datetime.utcnow()` becomes an explicit `now : ℚ` argument, making the
  code's dependence on the clock visible in the model.
* Python dict/`or` truthiness is modelled explicitly where the code relies
  on it (`0` and `None` are both falsy; see `pyOrQ`, `pyTruthyQ`).
* Fallible code returns `Except PyErr` or `Option`.
-/

namespace Spec2Proof

/-! ## FIFO P&L engine (`modules/trading/pnl_calculator.py`) -/

/-- One trade execution (fill), after `_normalize_trades`. Timestamps are
in milliseconds as in the source. -/
structure TradeExecution where
  id : String
  symbol : String
  side : String
  quantity : ℚ
  price : ℚ
  fee : ℚ
  timestamp : ℤ
  platform : String := "spot"
deriving DecidableEq, Repr

/-- A completed round-trip trade, as produced by `_process_executions`.
`entry_date` and `exit_date` are POSIX seconds
(`datetime.fromtimestamp(ts / 1000)` in the source). -/
structure ClosedTrade where
  symbol : String
  entry_date : ℚ
  exit_date : ℚ
  duration_seconds : ℚ
  side : String
  quantity : ℚ
  entry_price : ℚ
  exit_price : ℚ
  gross_pnl : ℚ
  fee : ℚ
  net_pnl : ℚ
  roi_percentage : ℚ
deriving DecidableEq, Repr

/-- An open lot, one entry of `self.positions[symbol]` in the source
(the dict with keys quantity, initial_quantity, price, side, timestamp,
fee). -/
structure OpenLot where
  quantity : ℚ
  initial_quantity : ℚ
  price : ℚ
  side : String
  timestamp : ℤ
  fee : ℚ
deriving DecidableEq, Repr

/-- The `while remaining_qty > 0 and open_lots` loop of
`_process_executions`: match the execution `ex` against the oldest open
lots (FIFO), emitting one `ClosedTrade` per match.  Returns the closed
trades accumulated so far, the remaining lot queue and the remaining
unmatched quantity.  The loop body is transliterated clause by clause;
the recursion is well-founded because each iteration either pops the
oldest lot or leaves a partially consumed lot at the head, in which case
the remaining quantity has been driven to zero and the guard fails. -/
def closeAgainstLots (ex : TradeExecution) (closed : List ClosedTrade)
    (lots : List OpenLot) (remaining : ℚ) : List ClosedTrade × List OpenLot × ℚ :=
  match lots with
  | [] => (closed, [], remaining)
  | lot :: rest =>
    if 0 < remaining then
      -- is_closing = (oldest_lot['side'] != exec.side); same side breaks the loop
      if lot.side = ex.side then
        (closed, lot :: rest, remaining)
      else
        let match_qty := min remaining lot.quantity
        let gross_pnl :=
          if lot.side = "buy" then (ex.price - lot.price) * match_qty
          else (lot.price - ex.price) * match_qty
        let trade_side := if lot.side = "buy" then "long" else "short"
        let entry_fee := lot.fee * (match_qty / lot.initial_quantity)
        let exit_fee := if 0 < ex.quantity then ex.fee * (match_qty / ex.quantity) else 0
        let total_fee := entry_fee + exit_fee
        let net_pnl := gross_pnl - total_fee
        let invested := lot.price * match_qty
        let roi := if 0 < invested then net_pnl / invested * 100 else 0
        let ct : ClosedTrade :=
          { symbol := ex.symbol
            entry_date := (lot.timestamp : ℚ) / 1000
            exit_date := (ex.timestamp : ℚ) / 1000
            duration_seconds := ((ex.timestamp : ℚ) - (lot.timestamp : ℚ)) / 1000
            side := trade_side
            quantity := match_qty
            entry_price := lot.price
            exit_price := ex.price
            gross_pnl := gross_pnl
            fee := total_fee
            net_pnl := net_pnl
            roi_percentage := roi }
        let lot2 : OpenLot :=
          { lot with quantity := lot.quantity - match_qty, fee := lot.fee - entry_fee }
        if lot2.quantity ≤ 0 then
          closeAgainstLots ex (closed ++ [ct]) rest (remaining - match_qty)
        else
          closeAgainstLots ex (closed ++ [ct]) (lot2 :: rest) (remaining - match_qty)
    else (closed, lot :: rest, remaining)
termination_by 2 * lots.length + (if 0 < remaining then 1 else 0)
decreasing_by
  · -- popping the head lot strictly shrinks the queue
    simp only [List.length_cons]
    have h1 : (if 0 < remaining - min remaining lot.quantity then 1 else 0) ≤ 1 := by
      split <;> omega
    have h2 : (if 0 < remaining then 1 else 0) = 1 := by simp [*]
    omega
  · -- the head lot was only partially consumed: `match_qty = remaining`,
    -- so the remaining quantity is now zero and the guard fails
    rename_i hq
    have hq2 : ¬ lot.quantity - min remaining lot.quantity ≤ 0 := hq
    have hmin : min remaining lot.quantity = remaining := by
      rcases min_choice remaining lot.quantity with h | h
      · exact h
      · exact absurd (by rw [h]; simp) hq2
    have h0 : ¬ (0 : ℚ) < remaining - min remaining lot.quantity := by
      rw [hmin]; simp
    have h2 : (if 0 < remaining then 1 else 0) = 1 := by simp [*]
    simp only [List.length_cons, h0, if_false, h2]
    omega

/-- Structurally recursive evaluator for `closeAgainstLots`, used to compute
with the definition (well-founded recursion does not reduce in the kernel).
It is identical except that in the partially-consumed branch it returns
directly, which agrees with `closeAgainstLots` because there the remaining
quantity is zero and the next loop guard fails; `closeAgainstLots_eq_impl`
proves the two agree on every input. -/
def closeAgainstLotsImpl (ex : TradeExecution) :
    List ClosedTrade → List OpenLot → ℚ → List ClosedTrade × List OpenLot × ℚ
  | closed, [], remaining => (closed, [], remaining)
  | closed, lot :: rest, remaining =>
    if 0 < remaining then
      if lot.side = ex.side then
        (closed, lot :: rest, remaining)
      else
        let match_qty := min remaining lot.quantity
        let gross_pnl :=
          if lot.side = "buy" then (ex.price - lot.price) * match_qty
          else (lot.price - ex.price) * match_qty
        let trade_side := if lot.side = "buy" then "long" else "short"
        let entry_fee := lot.fee * (match_qty / lot.initial_quantity)
        let exit_fee := if 0 < ex.quantity then ex.fee * (match_qty / ex.quantity) else 0
        let total_fee := entry_fee + exit_fee
        let net_pnl := gross_pnl - total_fee
        let invested := lot.price * match_qty
        let roi := if 0 < invested then net_pnl / invested * 100 else 0
        let ct : ClosedTrade :=
          { symbol := ex.symbol
            entry_date := (lot.timestamp : ℚ) / 1000
            exit_date := (ex.timestamp : ℚ) / 1000
            duration_seconds := ((ex.timestamp : ℚ) - (lot.timestamp : ℚ)) / 1000
            side := trade_side
            quantity := match_qty
            entry_price := lot.price
            exit_price := ex.price
            gross_pnl := gross_pnl
            fee := total_fee
            net_pnl := net_pnl
            roi_percentage := roi }
        let lot2 : OpenLot :=
          { lot with quantity := lot.quantity - match_qty, fee := lot.fee - entry_fee }
        if lot2.quantity ≤ 0 then
          closeAgainstLotsImpl ex (closed ++ [ct]) rest (remaining - match_qty)
        else
          (closed ++ [ct], lot2 :: rest, remaining - match_qty)
    else (closed, lot :: rest, remaining)

/-- When the head lot is only partially consumed, the whole remaining
quantity was matched. -/
lemma min_eq_remaining_of_leftover (remaining q : ℚ)
    (hq : ¬ q - min remaining q ≤ 0) : min remaining q = remaining := by
  rcases min_choice remaining q with h | h
  · exact h
  · exact absurd (by rw [h]; simp) hq

/-- The well-founded while-loop transliteration and its structural
evaluator agree on every input. -/
lemma closeAgainstLots_eq_impl (ex : TradeExecution) (closed : List ClosedTrade)
    (lots : List OpenLot) (remaining : ℚ) :
    closeAgainstLots ex closed lots remaining =
      closeAgainstLotsImpl ex closed lots remaining := by
  induction lots generalizing closed remaining with
  | nil => rw [closeAgainstLots.eq_def]; rfl
  | cons lot rest ih =>
    rw [closeAgainstLots.eq_def, closeAgainstLotsImpl]
    by_cases hrem : 0 < remaining
    · by_cases hside : lot.side = ex.side
      · simp only [hrem, hside, if_true]
      · by_cases hq : lot.quantity - min remaining lot.quantity ≤ 0
        · simp only [hrem, hside, hq, if_true, if_false, ih]
        · -- the remaining quantity is exhausted; one more unfolding of the
          -- loop returns immediately
          have hmin := min_eq_remaining_of_leftover remaining lot.quantity hq
          have hz : ¬ (0 : ℚ) < remaining - min remaining lot.quantity := by
            rw [hmin]; simp
          simp only [hrem, hside, hq, if_true, if_false]
          rw [closeAgainstLots.eq_def]
          simp [hz]
    · simp [hrem]

/-- One iteration of the `for exec in executions` loop of
`_process_executions`: run the FIFO matching loop for the execution's
symbol and, if unmatched quantity remains, append a new open lot. The
positions map is modelled as a total function with default `[]`
(mirroring `if symbol not in self.positions: self.positions[symbol] = []`). -/
def processExecution (positions : String → List OpenLot)
    (closed : List ClosedTrade) (ex : TradeExecution) :
    (String → List OpenLot) × List ClosedTrade :=
  let open_lots := positions ex.symbol
  let res := closeAgainstLots ex closed open_lots ex.quantity
  let closed2 := res.1
  let lots2 := res.2.1
  let remaining2 := res.2.2
  let lots3 :=
    if 0 < remaining2 then
      lots2 ++ [{ quantity := remaining2
                  initial_quantity := remaining2
                  price := ex.price
                  side := ex.side
                  timestamp := ex.timestamp
                  fee := if 0 < ex.quantity then ex.fee * (remaining2 / ex.quantity)
                         else 0 : OpenLot }]
    else lots2
  (fun s => if s = ex.symbol then lots3 else positions s, closed2)

/-- `PnLCalculator._process_executions`: fold the per-execution step over
the (already timestamp-sorted) execution list, starting from empty
positions.  Returns the final positions map together with the closed
trades, in emission order. -/
def processExecutions (executions : List TradeExecution) :
    (String → List OpenLot) × List ClosedTrade :=
  executions.foldl (fun st ex => processExecution st.1 st.2 ex) (fun _ => [], [])

/-- Kernel-computable version of `processExecution` (same definition with
the structural evaluator substituted for the loop). -/
def processExecutionImpl (positions : String → List OpenLot)
    (closed : List ClosedTrade) (ex : TradeExecution) :
    (String → List OpenLot) × List ClosedTrade :=
  let open_lots := positions ex.symbol
  let res := closeAgainstLotsImpl ex closed open_lots ex.quantity
  let closed2 := res.1
  let lots2 := res.2.1
  let remaining2 := res.2.2
  let lots3 :=
    if 0 < remaining2 then
      lots2 ++ [{ quantity := remaining2
                  initial_quantity := remaining2
                  price := ex.price
                  side := ex.side
                  timestamp := ex.timestamp
                  fee := if 0 < ex.quantity then ex.fee * (remaining2 / ex.quantity)
                         else 0 : OpenLot }]
    else lots2
  (fun s => if s = ex.symbol then lots3 else positions s, closed2)

/-- Kernel-computable version of `processExecutions`. -/
def processExecutionsImpl (executions : List TradeExecution) :
    (String → List OpenLot) × List ClosedTrade :=
  executions.foldl (fun st ex => processExecutionImpl st.1 st.2 ex) (fun _ => [], [])

lemma processExecution_eq_impl (positions : String → List OpenLot)
    (closed : List ClosedTrade) (ex : TradeExecution) :
    processExecution positions closed ex = processExecutionImpl positions closed ex := by
  simp only [processExecution, processExecutionImpl, closeAgainstLots_eq_impl]

lemma processExecutions_eq_impl (executions : List TradeExecution) :
    processExecutions executions = processExecutionsImpl executions := by
  unfold processExecutions processExecutionsImpl
  congr 1
  funext st ex
  exact processExecution_eq_impl st.1 st.2 ex

/-! ### Invariants of the FIFO open-lot queues (claim C10) -/

/-- All lots in a queue carry one single side. -/
def sameSideLots (lots : List OpenLot) : Prop :=
  ∀ l1 ∈ lots, ∀ l2 ∈ lots, l1.side = l2.side

/-- All lots in a queue have strictly positive quantity. -/
def posLots (lots : List OpenLot) : Prop :=
  ∀ l ∈ lots, 0 < l.quantity

/-- Every lot surviving the matching loop has the side of some input lot. -/
lemma impl_side_mem (ex : TradeExecution) (closed : List ClosedTrade)
    (lots : List OpenLot) (remaining : ℚ) :
    ∀ l ∈ (closeAgainstLotsImpl ex closed lots remaining).2.1,
      ∃ l0 ∈ lots, l.side = l0.side := by
  induction lots generalizing closed remaining with
  | nil => simp [closeAgainstLotsImpl]
  | cons lot rest ih =>
    intro l hl
    rw [closeAgainstLotsImpl] at hl
    by_cases hrem : 0 < remaining
    · simp only [hrem, if_true] at hl
      by_cases hside : lot.side = ex.side
      · simp only [hside, if_true] at hl
        exact ⟨l, hl, rfl⟩
      · simp only [hside, if_false] at hl
        by_cases hq : lot.quantity - min remaining lot.quantity ≤ 0
        · simp only [hq, if_true] at hl
          obtain ⟨l0, hl0, hs⟩ := ih _ _ l hl
          exact ⟨l0, List.mem_cons_of_mem _ hl0, hs⟩
        · simp only [hq, if_false] at hl
          rcases List.mem_cons.mp hl with h | h
          · exact ⟨lot, List.mem_cons_self _ _, by rw [h]⟩
          · exact ⟨l, List.mem_cons_of_mem _ h, rfl⟩
    · simp only [hrem, if_false] at hl
      exact ⟨l, hl, rfl⟩

/-- The matching loop preserves positivity of lot quantities. -/
lemma impl_pos (ex : TradeExecution) (closed : List ClosedTrade)
    (lots : List OpenLot) (remaining : ℚ) (hpos : posLots lots) :
    posLots (closeAgainstLotsImpl ex closed lots remaining).2.1 := by
  induction lots generalizing closed remaining with
  | nil => simp [closeAgainstLotsImpl, posLots]
  | cons lot rest ih =>
    intro l hl
    rw [closeAgainstLotsImpl] at hl
    by_cases hrem : 0 < remaining
    · simp only [hrem, if_true] at hl
      by_cases hside : lot.side = ex.side
      · simp only [hside, if_true] at hl
        exact hpos l hl
      · simp only [hside, if_false] at hl
        by_cases hq : lot.quantity - min remaining lot.quantity ≤ 0
        · simp only [hq, if_true] at hl
          exact ih _ _ (fun l0 hl0 => hpos l0 (List.mem_cons_of_mem _ hl0)) l hl
        · simp only [hq, if_false] at hl
          rcases List.mem_cons.mp hl with h | h
          · rw [h]
            simpa using lt_of_not_le (fun hc => hq (by simpa using hc))
          · exact hpos l (List.mem_cons_of_mem _ h)
    · simp only [hrem, if_false] at hl
      exact hpos l hl

/-- If unmatched quantity remains after the loop on a single-sided queue,
every surviving lot has the execution's own side (the loop either
exhausted the queue or stopped at a same-side head). -/
lemma impl_side_of_remaining (ex : TradeExecution) (closed : List ClosedTrade)
    (lots : List OpenLot) (remaining : ℚ) :
    sameSideLots lots →
    0 < (closeAgainstLotsImpl ex closed lots remaining).2.2 →
    ∀ l ∈ (closeAgainstLotsImpl ex closed lots remaining).2.1, l.side = ex.side := by
  induction lots generalizing closed remaining with
  | nil => intro _ _; simp [closeAgainstLotsImpl]
  | cons lot rest ih =>
    intro huni hr l hl
    rw [closeAgainstLotsImpl] at hl hr
    by_cases hrem : 0 < remaining
    · simp only [hrem, if_true] at hl hr
      by_cases hside : lot.side = ex.side
      · simp only [hside, if_true] at hl
        calc l.side = lot.side :=
              huni l hl lot (List.mem_cons_self _ _)
          _ = ex.side := hside
      · simp only [hside, if_false] at hl hr
        by_cases hq : lot.quantity - min remaining lot.quantity ≤ 0
        · simp only [hq, if_true] at hl hr
          exact ih _ _ (fun l1 h1 l2 h2 =>
            huni l1 (List.mem_cons_of_mem _ h1) l2 (List.mem_cons_of_mem _ h2)) hr l hl
        · simp only [hq, if_false] at hl hr
          exact absurd hr (by
            rw [min_eq_remaining_of_leftover remaining lot.quantity hq]
            simp)
    · simp only [hrem, if_false] at hl hr

/-- The matching loop preserves single-sidedness of the queue. -/
lemma impl_sameSide (ex : TradeExecution) (closed : List ClosedTrade)
    (lots : List OpenLot) (remaining : ℚ) (huni : sameSideLots lots) :
    sameSideLots (closeAgainstLotsImpl ex closed lots remaining).2.1 := by
  intro l1 h1 l2 h2
  obtain ⟨m1, hm1, hs1⟩ := impl_side_mem ex closed lots remaining l1 h1
  obtain ⟨m2, hm2, hs2⟩ := impl_side_mem ex closed lots remaining l2 h2
  rw [hs1, hs2]
  exact huni m1 hm1 m2 hm2

/-- One execution step preserves the per-symbol queue invariant. -/
lemma processExecutionImpl_preserves (positions : String → List OpenLot)
    (closed : List ClosedTrade) (ex : TradeExecution)
    (h : ∀ s, sameSideLots (positions s) ∧ posLots (positions s)) :
    ∀ s, sameSideLots ((processExecutionImpl positions closed ex).1 s) ∧
      posLots ((processExecutionImpl positions closed ex).1 s) := by
  intro s
  obtain ⟨huni, hpos⟩ := h ex.symbol
  simp only [processExecutionImpl]
  by_cases hs : s = ex.symbol
  · simp only [hs, if_true]
    by_cases hrem : 0 < (closeAgainstLotsImpl ex closed (positions ex.symbol) ex.quantity).2.2
    · simp only [hrem, if_true]
      constructor
      · -- every surviving lot and the appended lot have the execution's side
        intro l1 h1 l2 h2
        rcases List.mem_append.mp h1 with h1 | h1 <;>
          rcases List.mem_append.mp h2 with h2 | h2
        · exact impl_sameSide ex closed _ _ huni l1 h1 l2 h2
        · rw [impl_side_of_remaining ex closed _ _ huni hrem l1 h1]
          simp at h2
          rw [h2]
        · rw [impl_side_of_remaining ex closed _ _ huni hrem l2 h2]
          simp at h1
          rw [h1]
        · simp at h1 h2
          rw [h1, h2]
      · intro l hl
        rcases List.mem_append.mp hl with hl | hl
        · exact impl_pos ex closed _ _ hpos l hl
        · simp at hl
          rw [hl]
          exact hrem
    · simp only [hrem, if_false]
      exact ⟨impl_sameSide ex closed _ _ huni, impl_pos ex closed _ _ hpos⟩
  · simp only [hs, if_false]
    exact h s

/-- The full execution fold preserves the invariant from the empty state. -/
lemma processExecutionsImpl_invariant (executions : List TradeExecution) :
    ∀ st : (String → List OpenLot) × List ClosedTrade,
      (∀ s, sameSideLots (st.1 s) ∧ posLots (st.1 s)) →
      ∀ s, sameSideLots ((executions.foldl
          (fun st ex => processExecutionImpl st.1 st.2 ex) st).1 s) ∧
        posLots ((executions.foldl
          (fun st ex => processExecutionImpl st.1 st.2 ex) st).1 s) := by
  induction executions with
  | nil => intro st h s; exact h s
  | cons ex rest ih =>
    intro st h s
    exact ih (processExecutionImpl st.1 st.2 ex)
      (processExecutionImpl_preserves st.1 st.2 ex h) s

/-- C10: after `_process_executions` handles every execution, each
per-symbol open-lot queue holds lots of one single side only, and every
lot in a queue has strictly positive quantity. -/
theorem C10_open_lot_queue_invariant (executions : List TradeExecution) (sym : String) :
    sameSideLots ((processExecutions executions).1 sym) ∧
      posLots ((processExecutions executions).1 sym) := by
  rw [processExecutions_eq_impl]
  exact processExecutionsImpl_invariant executions (fun _ => [], [])
    (by intro s; constructor <;> simp [sameSideLots, posLots]) sym

/-! ### Concrete fixtures for the FIFO worked example (claim C1) -/

/-- buy 1.0 BTC @ 40000 at t1 (zero fees). -/
def c1exec1 : TradeExecution :=
  { id := "1", symbol := "BTC/USDT", side := "buy", quantity := 1, price := 40000,
    fee := 0, timestamp := 1000 }

/-- buy 0.5 BTC @ 42000 at t2 (zero fees). -/
def c1exec2 : TradeExecution :=
  { id := "2", symbol := "BTC/USDT", side := "buy", quantity := 1/2, price := 42000,
    fee := 0, timestamp := 2000 }

/-- sell 1.2 BTC @ 45000 at t3 (zero fees). -/
def c1exec3 : TradeExecution :=
  { id := "3", symbol := "BTC/USDT", side := "sell", quantity := 6/5, price := 45000,
    fee := 0, timestamp := 3000 }

/-- C1: on `[buy 1.0 @ 40000, buy 0.5 @ 42000, sell 1.2 @ 45000]` with zero
fees, `_process_executions` yields exactly two ClosedTrades, in order — 1.0
BTC entry 40000 exit 45000 gross 5000 long, then 0.2 BTC entry 42000 exit
45000 gross 600 long — and exactly one open lot remains for the symbol:
0.3 BTC at 42000, side buy. -/
theorem C1_fifo_worked_example :
    (processExecutions [c1exec1, c1exec2, c1exec3]).2 =
      [{ symbol := "BTC/USDT", entry_date := 1, exit_date := 3, duration_seconds := 2,
         side := "long", quantity := 1, entry_price := 40000, exit_price := 45000,
         gross_pnl := 5000, fee := 0, net_pnl := 5000, roi_percentage := 25/2 },
       { symbol := "BTC/USDT", entry_date := 2, exit_date := 3, duration_seconds := 1,
         side := "long", quantity := 1/5, entry_price := 42000, exit_price := 45000,
         gross_pnl := 600, fee := 0, net_pnl := 600, roi_percentage := 50/7 }] ∧
    (processExecutions [c1exec1, c1exec2, c1exec3]).1 "BTC/USDT" =
      [{ quantity := 3/10, initial_quantity := 1/2, price := 42000, side := "buy",
         timestamp := 2000, fee := 0 }] := by
  rw [processExecutions_eq_impl]
  constructor <;>
    · norm_num [processExecutionsImpl, processExecutionImpl, closeAgainstLotsImpl,
        c1exec1, c1exec2, c1exec3]
      simp

/-! ## Reputation metrics (`PnLCalculator._calculate_metrics`)

The source computes `profit_factor` as a Python float and can assign it the
literal IEEE value `float('inf')`; the model makes that value explicit. -/

/-- A Python float that is either a finite value (modelled exactly) or the
literal positive infinity `float('inf')`. -/
inductive PyFloat where
  | finite (q : ℚ)
  | inf
deriving DecidableEq, Repr

/-- `ReputationScore`. `generated_at` is filled by
`field(default_factory=datetime.utcnow)` in the source, i.e. by the clock
at construction time; the model passes that clock reading explicitly. -/
structure ReputationScore where
  trader_id : String
  total_trades : ℕ
  winning_trades : ℕ
  losing_trades : ℕ
  win_rate : ℚ
  total_pnl_usd : ℚ
  profit_factor : PyFloat
  average_roi : ℚ
  score : ℚ
  generated_at : ℚ
deriving DecidableEq, Repr

/-- `winning_trades = sum(1 for t in closed_trades if t.net_pnl > 0)`. -/
def winningTrades (ts : List ClosedTrade) : ℕ :=
  (ts.filter (fun t => 0 < t.net_pnl)).length

/-- `losing_trades = sum(1 for t in closed_trades if t.net_pnl <= 0)`. -/
def losingTrades (ts : List ClosedTrade) : ℕ :=
  (ts.filter (fun t => t.net_pnl ≤ 0)).length

/-- `total_pnl = sum(t.net_pnl for t in closed_trades)`. -/
def totalPnl (ts : List ClosedTrade) : ℚ :=
  (ts.map (fun t => t.net_pnl)).sum

/-- `gross_profit = sum(t.net_pnl for t in closed_trades if t.net_pnl > 0)`. -/
def grossProfit (ts : List ClosedTrade) : ℚ :=
  ((ts.filter (fun t => 0 < t.net_pnl)).map (fun t => t.net_pnl)).sum

/-- `gross_loss = abs(sum(t.net_pnl for t in closed_trades if t.net_pnl < 0))`. -/
def grossLoss (ts : List ClosedTrade) : ℚ :=
  |((ts.filter (fun t => t.net_pnl < 0)).map (fun t => t.net_pnl)).sum|

/-- `win_rate = (winning_trades / total_trades) * 100`. -/
def winRate (ts : List ClosedTrade) : ℚ :=
  ((winningTrades ts : ℚ) / (ts.length : ℚ)) * 100

/-- `profit_factor = float(gross_profit / gross_loss) if gross_loss > 0
else float('inf') if gross_profit > 0 else 0`. -/
def profitFactor (ts : List ClosedTrade) : PyFloat :=
  if 0 < grossLoss ts then .finite (grossProfit ts / grossLoss ts)
  else if 0 < grossProfit ts then .inf
  else .finite 0

/-- `avg_roi = float(sum(t.roi_percentage for t in closed_trades) / total_trades)`. -/
def avgROI (ts : List ClosedTrade) : ℚ :=
  (ts.map (fun t => t.roi_percentage)).sum / (ts.length : ℚ)

/-- `score_pf = min(profit_factor * 33, 100) if profit_factor != float('inf')
else 100`. -/
def scorePF (ts : List ClosedTrade) : ℚ :=
  match profitFactor ts with
  | .inf => 100
  | .finite pf => min (pf * 33) 100

/-- The weighted composite before rounding:
`score_win_rate*0.30 + score_pf*0.30 + score_roi*0.20 + score_activity*0.20`. -/
def finalScore (ts : List ClosedTrade) : ℚ :=
  min (winRate ts) 100 * 0.30 + scorePF ts * 0.30 +
    min (max (avgROI ts * 5) 0) 100 * 0.20 +
    min ((ts.length : ℚ) * 2) 100 * 0.20

/-- Python `round(x, 2)`. (Python rounds ties to even; the claims proved
here do not depend on the tie-breaking mode, only on rounding staying
within the bounds of its argument.) -/
def pyRound2 (q : ℚ) : ℚ :=
  round (q * 100) / 100

/-- `PnLCalculator._calculate_metrics`, with the construction-time clock
reading (`datetime.utcnow()` via `generated_at`'s default factory) passed
explicitly as `now`. -/
def calculateMetrics (closed_trades : List ClosedTrade) (trader_id : String)
    (now : ℚ) : ReputationScore :=
  if closed_trades = [] then
    { trader_id := trader_id, total_trades := 0, winning_trades := 0,
      losing_trades := 0, win_rate := 0, total_pnl_usd := 0,
      profit_factor := .finite 0, average_roi := 0, score := 0,
      generated_at := now }
  else
    { trader_id := trader_id
      total_trades := closed_trades.length
      winning_trades := winningTrades closed_trades
      losing_trades := losingTrades closed_trades
      win_rate := winRate closed_trades
      total_pnl_usd := totalPnl closed_trades
      profit_factor := profitFactor closed_trades
      average_roi := avgROI closed_trades
      score := pyRound2 (finalScore closed_trades)
      generated_at := now }

/-- A single all-win closed trade (net P&L 10, no losses). -/
def c6trade : ClosedTrade :=
  { symbol := "BTC/USDT", entry_date := 0, exit_date := 1, duration_seconds := 1,
    side := "long", quantity := 1, entry_price := 100, exit_price := 110,
    gross_pnl := 10, fee := 0, net_pnl := 10, roi_percentage := 10 }

/-- C6 (counterexample): for the single winning trade `c6trade` (positive
net P&L, no losses), the `profit_factor` field of the returned
`ReputationScore` is the literal IEEE infinity `float('inf')`, not a
finite theoretical-maximum value, contradicting the claim. -/
theorem C6_profit_factor_is_literal_inf :
    (calculateMetrics [c6trade] "trader" 0).profit_factor = PyFloat.inf := by
  norm_num [calculateMetrics, profitFactor, grossLoss, grossProfit, c6trade]

/-- C6 (amended): for a non-empty list of ClosedTrades with at least one
positive-net trade and no negative-net trade, `profit_factor` is the
literal infinity `float('inf')`; the composite score nevertheless stays
finite and within [0, 100] because the profit-factor score component is
capped at 100 when the profit factor is infinite. -/
theorem C6_no_loss_profit_factor_inf_score_bounded (ts : List ClosedTrade)
    (tid : String) (now : ℚ) (hne : ts ≠ [])
    (hnoneg : ∀ t ∈ ts, 0 ≤ t.net_pnl) (hpos : ∃ t ∈ ts, 0 < t.net_pnl) :
    (calculateMetrics ts tid now).profit_factor = PyFloat.inf ∧
    0 ≤ (calculateMetrics ts tid now).score ∧
    (calculateMetrics ts tid now).score ≤ 100 := by
  have hloss : grossLoss ts = 0 := by
    unfold grossLoss
    have h : ts.filter (fun t => decide (t.net_pnl < 0)) = [] := by
      rw [List.filter_eq_nil_iff]
      intro t ht
      simpa using not_lt.mpr (hnoneg t ht)
    rw [h]
    simp
  have hgp : 0 < grossProfit ts := by
    obtain ⟨t, ht, htp⟩ := hpos
    unfold grossProfit
    apply List.sum_pos
    · intro x hx
      simp only [List.mem_map, List.mem_filter] at hx
      obtain ⟨u, ⟨hu, hup⟩, rfl⟩ := hx
      simpa using hup
    · simp only [ne_eq, List.map_eq_nil_iff]
      intro hfil
      rw [List.filter_eq_nil_iff] at hfil
      exact hfil t ht (by simpa using htp)
  have hpf : profitFactor ts = PyFloat.inf := by
    unfold profitFactor
    rw [hloss]
    simp [hgp]
  have hspf : scorePF ts = 100 := by unfold scorePF; rw [hpf]
  have h1 : 0 ≤ min (winRate ts) 100 :=
    le_min (by unfold winRate; positivity) (by norm_num)
  have h2 : min (winRate ts) 100 ≤ 100 := min_le_right _ _
  have h3 : 0 ≤ min (max (avgROI ts * 5) 0) 100 :=
    le_min (le_max_right _ _) (by norm_num)
  have h4 : min (max (avgROI ts * 5) 0) 100 ≤ 100 := min_le_right _ _
  have h5 : 0 ≤ min ((ts.length : ℚ) * 2) 100 := le_min (by positivity) (by norm_num)
  have h6 : min ((ts.length : ℚ) * 2) 100 ≤ 100 := min_le_right _ _
  have hF0 : 0 ≤ finalScore ts := by
    unfold finalScore
    rw [hspf]
    linarith
  have hF1 : finalScore ts ≤ 100 := by
    unfold finalScore
    rw [hspf]
    linarith
  have hr0 : 0 ≤ pyRound2 (finalScore ts) := by
    unfold pyRound2
    apply div_nonneg _ (by norm_num)
    rw [round_eq]
    exact_mod_cast Int.floor_nonneg.mpr (by linarith)
  have hr1 : pyRound2 (finalScore ts) ≤ 100 := by
    unfold pyRound2
    rw [div_le_iff₀ (by norm_num : (0:ℚ) < 100)]
    rw [round_eq]
    have hle : (⌊finalScore ts * 100 + 1/2⌋ : ℤ) ≤ 10000 := by
      have hmono := Int.floor_le_floor (α := ℚ)
        (show finalScore ts * 100 + 1/2 ≤ 10000 + 1/2 by linarith)
      have hhalf : ⌊(2⁻¹ : ℚ)⌋ = 0 := by norm_num
      simpa [hhalf] using hmono
    exact_mod_cast hle
  refine ⟨?_, ?_, ?_⟩
  · simp [calculateMetrics, hne, hpf]
  · simp only [calculateMetrics, hne, if_false]
    exact hr0
  · simp only [calculateMetrics, hne, if_false]
    exact hr1

/-- C6 (witness): the amended statement instantiated at the concrete
single-win trade list. -/
theorem C6_witness :
    (calculateMetrics [c6trade] "trader" 0).profit_factor = PyFloat.inf ∧
    0 ≤ (calculateMetrics [c6trade] "trader" 0).score ∧
    (calculateMetrics [c6trade] "trader" 0).score ≤ 100 :=
  C6_no_loss_profit_factor_inf_score_bounded [c6trade] "trader" 0
    (by simp)
    (by intro t ht
        rw [List.mem_singleton] at ht
        subst ht
        norm_num [c6trade])
    ⟨c6trade, by simp, by norm_num [c6trade]⟩

/-- A fixed closed trade used for the reputation-determinism claim. -/
def c9trade : ClosedTrade :=
  { symbol := "ETH/USDT", entry_date := 0, exit_date := 2, duration_seconds := 2,
    side := "long", quantity := 2, entry_price := 1000, exit_price := 990,
    gross_pnl := -20, fee := 1, net_pnl := -21, roi_percentage := -21/20 }

/-- C9 (counterexample): two invocations of the reputation calculation on
the same fixed trade list, at clock readings 0 and 1, produce
`ReputationScore` values that are not bit-for-bit identical: the
`generated_at` field records the current time. -/
theorem C9_generated_at_differs :
    calculateMetrics [c9trade] "trader" 0 ≠ calculateMetrics [c9trade] "trader" 1 := by
  intro h
  have hgen := congrArg ReputationScore.generated_at h
  simp [calculateMetrics] at hgen

/-- C9 (amended): every field of the `ReputationScore` except
`generated_at` is a deterministic function of the trade list and trader
id — two invocations at arbitrary clock readings agree on all of them;
only `generated_at` depends on the clock. -/
theorem C9_deterministic_except_generated_at (ts : List ClosedTrade)
    (tid : String) (now1 now2 : ℚ) :
    (calculateMetrics ts tid now1).trader_id = (calculateMetrics ts tid now2).trader_id ∧
    (calculateMetrics ts tid now1).total_trades = (calculateMetrics ts tid now2).total_trades ∧
    (calculateMetrics ts tid now1).winning_trades = (calculateMetrics ts tid now2).winning_trades ∧
    (calculateMetrics ts tid now1).losing_trades = (calculateMetrics ts tid now2).losing_trades ∧
    (calculateMetrics ts tid now1).win_rate = (calculateMetrics ts tid now2).win_rate ∧
    (calculateMetrics ts tid now1).total_pnl_usd = (calculateMetrics ts tid now2).total_pnl_usd ∧
    (calculateMetrics ts tid now1).profit_factor = (calculateMetrics ts tid now2).profit_factor ∧
    (calculateMetrics ts tid now1).average_roi = (calculateMetrics ts tid now2).average_roi ∧
    (calculateMetrics ts tid now1).score = (calculateMetrics ts tid now2).score := by
  by_cases h : ts = [] <;> simp [calculateMetrics, h]

/-! ## Copy-trading engine sizing (`modules/copy_trading/engine.py`)

`_calculate_copy_amount` relies on Python truthiness in three places:
`config.proportion_percent or 100`, `config.fixed_amount_usd or 0`,
and `if config.min_trade_size_usd:` / `if config.max_trade_size_usd:`.
`None` and `0` are both falsy, which the model makes explicit. -/

/-- Python `x or d` for an optional numeric field: `None` and `0` are both
falsy and yield the default. -/
def pyOrQ (x : Option ℚ) (d : ℚ) : ℚ :=
  match x with
  | none => d
  | some v => if v = 0 then d else v

/-- The sizing-relevant fields of `CopyTradingConfig`. -/
structure CopyTradingConfig where
  copy_mode : String
  fixed_amount_usd : Option ℚ
  proportion_percent : Option ℚ
  min_trade_size_usd : Option ℚ
  max_trade_size_usd : Option ℚ
deriving DecidableEq, Repr

/-- The event fields `_calculate_copy_amount` reads
(`event_data.get('quantity', 0)`, `event_data.get('price', 0)`). -/
structure TradeEventData where
  quantity : ℚ
  price : ℚ
deriving DecidableEq, Repr

/-- The `copy_mode` branch of `_calculate_copy_amount`: the replica
quantity before the min/max limits are applied. -/
def baseCopyAmount (config : CopyTradingConfig) (event : TradeEventData) : ℚ :=
  let trader_amount := event.quantity
  let trader_price := event.price
  if config.copy_mode = "fixed_amount" then
    let fixed_usd := pyOrQ config.fixed_amount_usd 0
    if 0 < trader_price then fixed_usd / trader_price else 0
  else if config.copy_mode = "proportional" then
    let percent := pyOrQ config.proportion_percent 100 / 100
    trader_amount * percent
  else if config.copy_mode = "smart_scale" then
    trader_amount
  else 0

/-- `_calculate_copy_amount`: the base amount followed by the min/max
limit clauses. `if config.min_trade_size_usd:` (and the max analogue) is
Python truthiness: skipped when the field is `None` or zero. -/
def calcCopyAmount (config : CopyTradingConfig) (event : TradeEventData) : ℚ :=
  let trader_price := event.price
  let amount := baseCopyAmount config event
  let minBlocked : Bool :=
    match config.min_trade_size_usd with
    | some m => decide (m ≠ 0) && decide (amount * trader_price < m)
    | none => false
  if minBlocked then 0
  else
    match config.max_trade_size_usd with
    | some mx =>
      if decide (mx ≠ 0) && decide (mx < amount * trader_price) then mx / trader_price
      else amount
    | none => amount

/-- The size gate at the top of `_execute_copy_trade`
(`if amount <= 0: return`): a non-positive computed amount means no order
is dispatched for this follower; otherwise the computed amount is sent. -/
def dispatchedQuantity (config : CopyTradingConfig) (event : TradeEventData) :
    Option ℚ :=
  let amount := calcCopyAmount config event
  if amount ≤ 0 then none else some amount

/-- Proportional-mode fixture with `proportion_percent = 0`. -/
def c7cfgZero : CopyTradingConfig :=
  { copy_mode := "proportional", fixed_amount_usd := none,
    proportion_percent := some 0, min_trade_size_usd := none,
    max_trade_size_usd := none }

/-- Event fixture: quantity 2 at price 5. -/
def c7event : TradeEventData := { quantity := 2, price := 5 }

/-- C7 (counterexample): in proportional mode with `proportion_percent = 0`
the pre-clamp replica quantity is `2` (the full trader quantity), not
`2 * (0 / 100) = 0`: `config.proportion_percent or 100` treats the value
`0` as falsy and substitutes `100`. -/
theorem C7_zero_percent_not_zero_quantity :
    baseCopyAmount c7cfgZero c7event = 2 ∧
    baseCopyAmount c7cfgZero c7event ≠ c7event.quantity * (0 / 100) := by
  constructor <;>
    · norm_num [baseCopyAmount, pyOrQ, c7cfgZero, c7event]
      simp

/-- C7 (amended): in proportional mode the pre-clamp replica quantity
equals `event.quantity * (proportion_percent / 100)` for every present and
non-zero `proportion_percent`; a missing or zero `proportion_percent` is
replaced by `100` by the `or 100` default. -/
theorem C7_proportional_amount (config : CopyTradingConfig)
    (event : TradeEventData) (p : ℚ) (hmode : config.copy_mode = "proportional")
    (hp : config.proportion_percent = some p) (hnz : p ≠ 0) :
    baseCopyAmount config event = event.quantity * (p / 100) := by
  simp [baseCopyAmount, pyOrQ, hmode, hp, hnz]

/-- Proportional-mode fixture with `proportion_percent = 10`. -/
def c7cfgTen : CopyTradingConfig :=
  { copy_mode := "proportional", fixed_amount_usd := none,
    proportion_percent := some 10, min_trade_size_usd := none,
    max_trade_size_usd := none }

/-- C7 (witness): the amended statement at `proportion_percent = 10`,
quantity 2. -/
theorem C7_witness :
    baseCopyAmount c7cfgTen c7event = c7event.quantity * (10 / 100) :=
  C7_proportional_amount c7cfgTen c7event 10 rfl rfl (by norm_num)

/-- Fixture: `max_trade_size_usd = 0` with mirror sizing. -/
def c8cfgMaxZero : CopyTradingConfig :=
  { copy_mode := "smart_scale", fixed_amount_usd := none,
    proportion_percent := none, min_trade_size_usd := none,
    max_trade_size_usd := some 0 }

/-- Event fixture: quantity 5 at price 10 (notional 50). -/
def c8event : TradeEventData := { quantity := 5, price := 10 }

/-- C8 (counterexample): with `max_trade_size_usd = 0` and a positive
price, the computed notional 50 is above the max 0, yet the engine
dispatches the full quantity 5 (notional 50 > 0): `if
config.max_trade_size_usd:` treats the value `0` as falsy and skips the
cap, so the dispatched notional is not capped to the max. -/
theorem C8_max_zero_not_capped :
    c8cfgMaxZero.max_trade_size_usd = some 0 ∧
    dispatchedQuantity c8cfgMaxZero c8event = some 5 ∧
    ¬ (5 : ℚ) * c8event.price ≤ 0 := by
  refine ⟨rfl, ?_, by norm_num [c8event]⟩
  norm_num [dispatchedQuantity, calcCopyAmount, baseCopyAmount, c8cfgMaxZero, c8event]
  simp [pyOrQ]

/-- C8 (amended): for every config and event with positive price, (1) when
`min_trade_size_usd` is set and the computed notional is below it, no
order is dispatched; (2) when `max_trade_size_usd` is set to a positive
value, the computed notional exceeds it, and the notional does not fall
below a set non-zero min, the dispatched quantity's notional equals the
max exactly. (A max of zero is treated as "no limit" by the code, see the
counterexample.) -/
theorem C8_size_clamps (config : CopyTradingConfig) (event : TradeEventData)
    (hprice : 0 < event.price) :
    (∀ m, config.min_trade_size_usd = some m →
      baseCopyAmount config event * event.price < m →
      dispatchedQuantity config event = none) ∧
    (∀ mx, config.max_trade_size_usd = some mx → 0 < mx →
      mx < baseCopyAmount config event * event.price →
      (∀ m, config.min_trade_size_usd = some m → m ≠ 0 →
        m ≤ baseCopyAmount config event * event.price) →
      ∃ q, dispatchedQuantity config event = some q ∧ q * event.price = mx) := by
  have hpne : event.price ≠ 0 := ne_of_gt hprice
  constructor
  · intro m hm hlt
    unfold dispatchedQuantity calcCopyAmount
    rw [hm]
    by_cases hm0 : m = 0
    · subst hm0
      have hneg : baseCopyAmount config event < 0 := by
        by_contra hge
        push_neg at hge
        nlinarith
      cases hmax : config.max_trade_size_usd with
      | none => simp [le_of_lt hneg]
      | some mx =>
        by_cases hcap : mx ≠ 0 ∧ mx < baseCopyAmount config event * event.price
        · have hmxneg : mx / event.price < 0 := by
            apply div_neg_of_neg_of_pos _ hprice
            nlinarith [hcap.2]
          simp [hcap.1, hcap.2, le_of_lt hmxneg]
        · push_neg at hcap
          by_cases hmx0 : mx = 0
          · simp [hmx0, le_of_lt hneg]
          · simp [hmx0, not_lt.mpr (hcap hmx0), le_of_lt hneg]
    · simp [hm0, hlt]
  · intro mx hmx h0 hlt hminok
    have hnb : (match config.min_trade_size_usd with
        | some m => decide (m ≠ 0) && decide (baseCopyAmount config event * event.price < m)
        | none => false) = false := by
      cases hmin : config.min_trade_size_usd with
      | none => rfl
      | some m =>
        by_cases hm0 : m = 0
        · simp [hm0]
        · simp [hm0, not_lt.mpr (hminok m hmin hm0)]
    refine ⟨mx / event.price, ?_, div_mul_cancel₀ mx hpne⟩
    unfold dispatchedQuantity calcCopyAmount
    simp only []
    rw [hnb, hmx]
    have hq : 0 < mx / event.price := div_pos h0 hprice
    simp [ne_of_gt h0, hlt, not_le.mpr hq]

/-- Fixture for the C8 witness: min 5 USD, max 100 USD, mirror sizing. -/
def c8wcfg : CopyTradingConfig :=
  { copy_mode := "smart_scale", fixed_amount_usd := none,
    proportion_percent := none, min_trade_size_usd := some 5,
    max_trade_size_usd := some 100 }

/-- Event fixture for the C8 witness: quantity 50 at price 10. -/
def c8wevent : TradeEventData := { quantity := 50, price := 10 }

/-- C8 (witness): the amended clamp statement at a concrete config
(min 5, max 100) and event (quantity 50, price 10). -/
theorem C8_witness :
    (∀ m, c8wcfg.min_trade_size_usd = some m →
      baseCopyAmount c8wcfg c8wevent * c8wevent.price < m →
      dispatchedQuantity c8wcfg c8wevent = none) ∧
    (∀ mx, c8wcfg.max_trade_size_usd = some mx → 0 < mx →
      mx < baseCopyAmount c8wcfg c8wevent * c8wevent.price →
      (∀ m, c8wcfg.min_trade_size_usd = some m → m ≠ 0 →
        m ≤ baseCopyAmount c8wcfg c8wevent * c8wevent.price) →
      ∃ q, dispatchedQuantity c8wcfg c8wevent = some q ∧
        q * c8wevent.price = mx) :=
  C8_size_clamps c8wcfg c8wevent (by norm_num [c8wevent])

/-! ## Trade monitor (`modules/copy_trading/monitor.py`)

Event construction (`_create_order_event`) and per-order dedup
(`_check_orders`). `datetime.utcnow()` is passed explicitly as `now`;
the Redis dedup cache is a list of (key, expiry) pairs, `get_cached`
returning a hit only for unexpired entries and `set_cached` storing
expiry `now + ttl`. -/

/-- `TradeEventType` (monitor.py). -/
inductive TradeEventType where
  | order_placed
  | order_filled
  | order_partially_filled
  | order_canceled
  | position_opened
  | position_closed
  | position_updated
  | stop_loss_triggered
  | take_profit_triggered
deriving DecidableEq, Repr

/-- The fields of `MonitoringSession` the order check reads. -/
structure MonitoringSessionObj where
  trader_id : String
  exchange : String
  symbols : Option (List String)
deriving DecidableEq, Repr

/-- A raw CCXT order record as `_check_orders` consumes it. -/
structure RawOrder where
  id : String
  status : String
  symbol : String
  side : String
  order_type : Option String
  amount : ℚ
  price : Option ℚ
  filled : ℚ
deriving DecidableEq, Repr

/-- `TradeEvent` (timestamps as rational POSIX seconds). -/
structure TradeEvent where
  event_id : String
  event_type : TradeEventType
  trader_id : String
  exchange : String
  symbol : String
  side : String
  order_type : String
  quantity : ℚ
  price : Option ℚ
  filled_quantity : ℚ
  timestamp : ℚ
  order_id : String
deriving DecidableEq, Repr

/-- `TradeMonitor._create_order_event`.  The event id is the f-string
`f"evt_{order['id']}_{datetime.utcnow().timestamp()}"`: it interpolates
the current clock reading. -/
def createOrderEvent (session : MonitoringSessionObj) (order : RawOrder)
    (now : ℚ) : TradeEvent :=
  let status := order.status.toLower
  let filled := order.filled
  let event_type :=
    if status = "closed" then TradeEventType.order_filled
    else if status = "canceled" then TradeEventType.order_canceled
    else if 0 < filled then TradeEventType.order_partially_filled
    else TradeEventType.order_placed
  { event_id := "evt_" ++ order.id ++ "_" ++ toString now
    event_type := event_type
    trader_id := session.trader_id
    exchange := session.exchange
    symbol := order.symbol
    side := order.side
    order_type := order.order_type.getD "unknown"
    quantity := order.amount
    -- float(order['price']) if order.get('price') else None: 0 is falsy
    price := match order.price with
             | some p => if p = 0 then none else some p
             | none => none
    filled_quantity := filled
    timestamp := now
    order_id := order.id }

/-- The dedup key `_check_orders` builds:
`f"{session_obj.exchange}_{order['id']}_{order['status']}"`. -/
def dedupEventKey (session : MonitoringSessionObj) (order : RawOrder) : String :=
  session.exchange ++ "_" ++ order.id ++ "_" ++ order.status

/-- Session fixture for the event-id claims. -/
def c4session : MonitoringSessionObj :=
  { trader_id := "trader-1", exchange := "binance", symbols := none }

/-- Order fixture for the event-id claims. -/
def c4order : RawOrder :=
  { id := "o-77", status := "closed", symbol := "BTC/USDT", side := "buy",
    order_type := some "limit", amount := 1, price := some 40000, filled := 1 }

/-- C4 (counterexample): two constructions of a TradeEvent from the same
venue, order id and status, at clock readings 1 and 2, produce different
`event_id`s — the emitted event id embeds `datetime.utcnow().timestamp()`
and is not a deterministic function of (venue, order id, status). -/
theorem C4_event_id_embeds_clock :
    (createOrderEvent c4session c4order 1).event_id ≠
      (createOrderEvent c4session c4order 2).event_id := by
  decide

/-- C4 (amended): the key the Monitor uses for dedup is derived
deterministically from (venue, order id, status) alone — any two
session/order pairs agreeing on those three fields yield the same dedup
key; the TradeEvent's own `event_id` field instead embeds the current
timestamp. -/
theorem C4_dedup_key_deterministic (s1 s2 : MonitoringSessionObj)
    (o1 o2 : RawOrder) (hv : s1.exchange = s2.exchange) (hid : o1.id = o2.id)
    (hst : o1.status = o2.status) :
    dedupEventKey s1 o1 = dedupEventKey s2 o2 := by
  simp [dedupEventKey, hv, hid, hst]

/-- A second session for the same venue but a different trader. -/
def c4sessionB : MonitoringSessionObj :=
  { trader_id := "trader-2", exchange := "binance", symbols := some ["BTC/USDT"] }

/-- The same order as `c4order` re-observed with different fill data. -/
def c4orderB : RawOrder :=
  { id := "o-77", status := "closed", symbol := "BTC/USDT", side := "buy",
    order_type := some "limit", amount := 1, price := some 40001, filled := 1/2 }

/-- C4 (witness): two distinct sessions and order records agreeing on
(venue, order id, status) give the same dedup key. -/
theorem C4_witness : dedupEventKey c4session c4order = dedupEventKey c4sessionB c4orderB :=
  C4_dedup_key_deterministic c4session c4sessionB c4order c4orderB rfl rfl rfl

/-- The Redis dedup cache: (key, expiry-time) entries. -/
structure RedisCache where
  entries : List (String × ℚ)
deriving DecidableEq, Repr

/-- `redis.get_cached(key)` at time `now`: a hit iff some entry for the
key has not yet expired. -/
def getCached (cache : RedisCache) (now : ℚ) (key : String) : Bool :=
  cache.entries.any (fun e => e.1 == key && decide (now < e.2))

/-- `redis.set_cached(key, "1", ttl)` at time `now`. -/
def setCached (cache : RedisCache) (now : ℚ) (key : String) (ttl : ℚ) : RedisCache :=
  ⟨(key, now + ttl) :: cache.entries⟩

/-- The symbol filter of `_check_orders`:
`if session_obj.symbols and order['symbol'] not in session_obj.symbols`
(`None` and the empty list are falsy). -/
def symbolFiltered (session : MonitoringSessionObj) (order : RawOrder) : Bool :=
  match session.symbols with
  | some syms => !syms.isEmpty && !(syms.contains order.symbol)
  | none => false

/-- The body of the per-order loop of `TradeMonitor._check_orders`: skip if
the dedup key is cached, skip if filtered by the symbol allow-list, else
create the event, publish it, and mark the key processed with ttl 3600. -/
def checkOrderStep (session : MonitoringSessionObj) (cache : RedisCache)
    (now : ℚ) (order : RawOrder) : RedisCache × Option TradeEvent :=
  let event_id := dedupEventKey session order
  if getCached cache now ("processed_event:" ++ event_id) then (cache, none)
  else if symbolFiltered session order then (cache, none)
  else
    let event := createOrderEvent session order now
    (setCached cache now ("processed_event:" ++ event_id) 3600, some event)

/-- C5: processing the same order record twice within the 3600-second
retention window publishes exactly one TradeEvent: the first observation
(not yet marked, not symbol-filtered) publishes and marks the key, and
the second observation within the window is skipped without publishing. -/
theorem C5_dedup_idempotent (session : MonitoringSessionObj)
    (cache : RedisCache) (order : RawOrder) (now1 now2 : ℚ)
    (h1 : getCached cache now1
      ("processed_event:" ++ dedupEventKey session order) = false)
    (hfil : symbolFiltered session order = false)
    (hwin : now2 < now1 + 3600) :
    (checkOrderStep session cache now1 order).2 =
      some (createOrderEvent session order now1) ∧
    (checkOrderStep session (checkOrderStep session cache now1 order).1
      now2 order).2 = none := by
  have hstep : checkOrderStep session cache now1 order =
      (setCached cache now1 ("processed_event:" ++ dedupEventKey session order) 3600,
       some (createOrderEvent session order now1)) := by
    simp [checkOrderStep, h1, hfil]
  constructor
  · rw [hstep]
  · rw [hstep]
    simp [checkOrderStep, getCached, setCached, hwin]

/-- Cache/order fixtures for the dedup witness. -/
def c5order : RawOrder :=
  { id := "o-9", status := "open", symbol := "ETH/USDT", side := "sell",
    order_type := none, amount := 3, price := none, filled := 0 }

/-- C5 (witness): the dedup statement at an empty cache, observation times
0 and 10. -/
theorem C5_witness :
    (checkOrderStep c4session ⟨[]⟩ 0 c5order).2 =
      some (createOrderEvent c4session c5order 0) ∧
    (checkOrderStep c4session (checkOrderStep c4session ⟨[]⟩ 0 c5order).1
      10 c5order).2 = none :=
  C5_dedup_idempotent c4session ⟨[]⟩ c5order 0 10 (by decide) (by decide)
    (by norm_num)

/-! ## Trading orchestrator (`modules/trading/exchanges/orchestrator.py`)

The registry `self.exchanges` is an insertion-ordered dict, modelled as an
association list; `self.initialized_exchanges` is the list of names whose
`initialize()` succeeded.  An adapter is modelled by its observable
behaviour: what `place_order` returns (or raises, as `Except.error`) and
what `_get_price_safe` yields for the symbol under consideration (`none`
when `get_market_data` raised — `_get_price_safe` swallows every
exception and returns `None`). -/

/-- The Python exceptions the modelled orchestrator paths can raise. -/
inductive PyErr where
  | valueError (msg : String)
  | runtimeError (msg : String)
  | indexError
  | orderError (msg : String)
deriving DecidableEq, Repr

/-- `OrderSide` (base.py). -/
inductive OrderSide where
  | buy
  | sell
deriving DecidableEq, Repr

/-- `TradeOrder` (base.py), restricted to the fields the orchestrator
routing logic reads. -/
structure TradeOrder where
  symbol : String
  side : OrderSide
  amount : ℚ
deriving DecidableEq, Repr

/-- `OrderResult` (base.py), restricted to identifying fields — the
orchestrator only passes results through. -/
structure OrderResult where
  order_id : String
  exchange : String
  status : String
deriving DecidableEq, Repr

/-- `MarketData` (base.py), the fields `get_best_price` reads. -/
structure MarketData where
  symbol : String
  bid : ℚ
  ask : ℚ
  last : ℚ
deriving DecidableEq, Repr

/-- An exchange adapter's observable behaviour. -/
structure ExchangeSim where
  place : TradeOrder → Except String OrderResult
  market : Option MarketData

/-- The orchestrator's registry state. -/
structure TradingOrchestrator where
  exchanges : List (String × ExchangeSim)
  initialized_exchanges : List String

/-- `TradingOrchestrator.place_order`: `ValueError` if the venue is not
registered, else the adapter's result (an adapter exception propagates). -/
def placeOrder (o : TradingOrchestrator) (exchange_name : String)
    (order : TradeOrder) : Except PyErr OrderResult :=
  match o.exchanges.lookup exchange_name with
  | none => .error (.valueError ("Exchange " ++ exchange_name ++ " not configured"))
  | some ex =>
    match ex.place order with
    | .ok r => .ok r
    | .error e => .error (.orderError e)

/-- `min(prices.items(), key=lambda x: x[1].ask)`: first minimum by ask. -/
def bestByAsk : (String × MarketData) → List (String × MarketData) → String × MarketData
  | best, [] => best
  | best, p :: rest => bestByAsk (if p.2.ask < best.2.ask then p else best) rest

/-- `max(prices.items(), key=lambda x: x[1].bid)`: first maximum by bid. -/
def bestByBid : (String × MarketData) → List (String × MarketData) → String × MarketData
  | best, [] => best
  | best, p :: rest => bestByBid (if best.2.bid < p.2.bid then p else best) rest

/-- The price-collection loop of `get_best_price`:
`for i, (name, _) in enumerate(self.exchanges.items())` indexes
`results[i]`, where `results` has one entry per **initialized** exchange
only; when the registry holds more exchanges than results, the index runs
past the end and Python raises `IndexError`.  A `None` result (failed
ticker) is skipped. -/
def buildPrices : List (String × ExchangeSim) → List (Option MarketData) →
    Except PyErr (List (String × MarketData))
  | [], _ => .ok []
  | _ :: _, [] => .error .indexError
  | (name, _) :: exRest, r :: rRest =>
    match buildPrices exRest rRest with
    | .error e => .error e
    | .ok prices =>
      match r with
      | some md => .ok ((name, md) :: prices)
      | none => .ok prices

/-- The returned dict of `get_best_price`. -/
structure BestPriceResult where
  best_exchange : String
  best_price : ℚ
  all_prices : List (String × MarketData)
deriving DecidableEq, Repr

/-- `TradingOrchestrator.get_best_price`. -/
def getBestPrice (o : TradingOrchestrator) (symbol : String) (side : OrderSide) :
    Except PyErr BestPriceResult :=
  let tasks := o.exchanges.filter (fun p => o.initialized_exchanges.contains p.1)
  let results := tasks.map (fun p => p.2.market)
  match buildPrices o.exchanges results with
  | .error e => .error e
  | .ok prices =>
    match prices with
    | [] => .error (.runtimeError "No prices available from any exchange")
    | p :: rest =>
      let best :=
        match side with
        | .buy => bestByAsk p rest
        | .sell => bestByBid p rest
      .ok { best_exchange := best.1
            best_price := match side with
                          | .buy => best.2.ask
                          | .sell => best.2.bid
            all_prices := p :: rest }

/-- Quote returned by the one initialized venue in the C3 registry. -/
def c3market : MarketData :=
  { symbol := "BTC/USDT", bid := 99, ask := 101, last := 100 }

/-- Registry with one registered-but-uninitialized venue (`alpha`, e.g.
failed `initialize()`) and one initialized venue (`beta`) that returns a
quote. -/
def c3orch : TradingOrchestrator :=
  { exchanges :=
      [("alpha", { place := fun _ => .error "connection refused", market := none }),
       ("beta", { place := fun _ => .ok { order_id := "b-1", exchange := "beta",
                                          status := "filled" },
                  market := some c3market })]
    initialized_exchanges := ["beta"] }

/-- C3 (failing input): with `alpha` registered but not initialized and
`beta` initialized and returning a usable quote, `get_best_price` raises
`IndexError` instead of returning `beta`'s quote: the collection loop
enumerates all registered exchanges but the gathered results list has one
entry per initialized exchange only, so the positional indexing runs out
(and mis-attributes `beta`'s quote to `alpha` on the way). -/
theorem C3_uninitialized_adapter_index_error :
    getBestPrice c3orch "BTC/USDT" OrderSide.buy = .error PyErr.indexError := by
  rfl

/-- Actions `replicate_trade` performs, in order: order placements and the
settling delay. -/
inductive ReplAction where
  | place (venue : String)
  | sleep (delay_ms : ℚ)
deriving DecidableEq, Repr

/-- `TradingOrchestrator.replicate_trade`: place on the source first (its
failure propagates), sleep `delay_ms` if positive, then place on every
*registered* target; gathered target failures are filtered out by
`if not isinstance(result, Exception)` and only successes are appended
after the source result.  Returns the action trace and the results list. -/
def replicateTrade (o : TradingOrchestrator) (source_exchange : String)
    (target_exchanges : List String) (order : TradeOrder) (delay_ms : ℚ) :
    Except PyErr (List ReplAction × List OrderResult) :=
  match placeOrder o source_exchange order with
  | .error e => .error e
  | .ok source_result =>
    let registered := target_exchanges.filter (fun t => (o.exchanges.lookup t).isSome)
    let target_results := registered.map (fun t => placeOrder o t order)
    let successes := target_results.filterMap (fun r => r.toOption)
    .ok (ReplAction.place source_exchange ::
          ((if 0 < delay_ms then [ReplAction.sleep delay_ms] else []) ++
            registered.map ReplAction.place),
         source_result :: successes)

/-- Order fixture for the replication claims. -/
def c2order : TradeOrder :=
  { symbol := "BTC/USDT", side := OrderSide.buy, amount := 1 }

/-- The successful source-venue result in the C2 registry. -/
def c2resA : OrderResult :=
  { order_id := "a-1", exchange := "alpha", status := "filled" }

/-- Registry where source venue `alpha` succeeds and target venue `beta`
raises on order placement. -/
def c2orch : TradingOrchestrator :=
  { exchanges :=
      [("alpha", { place := fun _ => .ok c2resA, market := none }),
       ("beta", { place := fun _ => .error "insufficient balance", market := none })]
    initialized_exchanges := ["alpha", "beta"] }

/-- C2 (counterexample): target `beta` fails with "insufficient balance",
yet `replicate_trade` returns `.ok` with results `[c2resA]` only — the
per-target failure is discarded, not collected and returned alongside the
successes as the claim states. -/
theorem C2_target_failure_discarded :
    placeOrder c2orch "beta" c2order = .error (PyErr.orderError "insufficient balance") ∧
    replicateTrade c2orch "alpha" ["beta"] c2order 0 =
      .ok ([ReplAction.place "alpha", ReplAction.place "beta"], [c2resA]) := by
  constructor <;> rfl

/-- C2 (amended): when the source placement succeeds, `replicate_trade`
places on the source first, sleeps the delay if positive, then places on
the registered targets, and returns the source result followed by **only
the successful** target results: every returned target result is the
success of some target, and failed targets contribute nothing to the
returned value. -/
theorem C2_replicate_source_first_failures_dropped (o : TradingOrchestrator)
    (source : String) (targets : List String) (order : TradeOrder)
    (delay_ms : ℚ) (sres : OrderResult)
    (hsrc : placeOrder o source order = .ok sres) :
    replicateTrade o source targets order delay_ms =
      .ok (ReplAction.place source ::
            ((if 0 < delay_ms then [ReplAction.sleep delay_ms] else []) ++
              (targets.filter (fun t => (o.exchanges.lookup t).isSome)).map
                ReplAction.place),
           sres :: (targets.filter (fun t => (o.exchanges.lookup t).isSome)).filterMap
             (fun t => (placeOrder o t order).toOption)) ∧
    ∀ r ∈ (targets.filter (fun t => (o.exchanges.lookup t).isSome)).filterMap
        (fun t => (placeOrder o t order).toOption),
      ∃ t ∈ targets, placeOrder o t order = .ok r := by
  constructor
  · simp only [replicateTrade, hsrc]
    rw [List.filterMap_map]
    simp only [Function.comp_def]
  · intro r hr
    rw [List.mem_filterMap] at hr
    obtain ⟨t, ht, hto⟩ := hr
    refine ⟨t, (List.mem_filter.mp ht).1, ?_⟩
    cases h : placeOrder o t order <;> simp [h, Except.toOption] at hto
    rw [hto]

/-- C2 (witness): the amended statement at the concrete registry where
the source succeeds and the single target fails. -/
theorem C2_witness :
    replicateTrade c2orch "alpha" ["beta"] c2order 0 =
      .ok (ReplAction.place "alpha" ::
            ((if (0:ℚ) < 0 then [ReplAction.sleep 0] else []) ++
              (["beta"].filter (fun t => (c2orch.exchanges.lookup t).isSome)).map
                ReplAction.place),
           c2resA :: (["beta"].filter (fun t => (c2orch.exchanges.lookup t).isSome)).filterMap
             (fun t => (placeOrder c2orch t c2order).toOption)) ∧
    ∀ r ∈ (["beta"].filter (fun t => (c2orch.exchanges.lookup t).isSome)).filterMap
        (fun t => (placeOrder c2orch t c2order).toOption),
      ∃ t ∈ ["beta"], placeOrder c2orch t c2order = .ok r :=
  C2_replicate_source_first_failures_dropped c2orch "alpha" ["beta"] c2order 0
    c2resA (by rfl)

end Spec2Proof
